import Mathlib

/-!
Verification of the TorrentBot core against its natural-language
specification.  Each section embeds one component of the Python source as
Lean definitions and proves (or refutes) the specified properties.

Components covered:
  completion monitor       src/src/torrent_client.py  TorrentClient.wait_for_completion
  progress throttle        src/src/progress_bar.py    TorrentProgressTracker
  delivery strategy        src/src/file_sender.py     SmartFileSender.send_file
                           src/src/userbot/uploader.py should_use_userbot
  relay uploader retry     src/src/userbot/uploader.py FileUploader.upload_file
  chunk splitter           src/src/file_manager.py    FileManager.split_file_py7zr / split_file_7z
  relay cache              src/src/shared/file_id_storage.py FileIdStorage
-/

set_option maxRecDepth 10000

namespace TorrentBot


/-!  ## Completion monitor (torrent_client.py, wait_for_completion)  -/

/-- States the monitor treats as terminal success
(`completed_states` list at torrent_client.py lines 405-411). -/
def completed_states : List String :=
  ["uploading", "stalledUP", "queuedUP", "pausedUP", "forcedUP"]

/-- States the monitor treats as terminal failure
(`error_states` list at torrent_client.py lines 418-422).
Note that the literal engine state string "unknown" is in this list. -/
def error_states : List String :=
  ["error", "missingFiles", "unknown"]

/-- States the monitor recognizes as active download states
(`downloading_states` list at torrent_client.py lines 429-440). -/
def downloading_states : List String :=
  ["downloading", "stalledDL", "queuedDL", "pausedDL", "checkingUP",
   "checkingDL", "queuedForChecking", "checkingResumeData", "moving",
   "allocating"]

/-- Modelled from the spec: the Terminal-Failure vocabulary of section 4.1,
"Terminal-Failure (error, missing-files)", written with the engine's
spellings.  Used only to compare the spec's vocabulary with the code's
`error_states`. -/
def spec_terminal_failure_states : List String :=
  ["error", "missingFiles"]

/-- Outcome of one `wait_for_completion` run.  The code returns a plain
boolean and logs the state; the `failed` constructor carries the reported
state string that the code logs as the reason. -/
inductive MonitorResult where
  | completed : MonitorResult
  | failed (reason : String) : MonitorResult
  | notFound : MonitorResult
deriving DecidableEq, Repr

/-- The polling loop of `wait_for_completion`, run over the sequence of
snapshot states it observes (`none` models `get_torrent_info` returning
`None`).  Each iteration: a missing snapshot returns failure immediately;
a state in `completed_states` returns success; a state in `error_states`
returns failure with the state as reason; any other state (a known
downloading state or an unrecognized one) sleeps and polls again.
`none` as the overall result means the observed sequence ended with the
monitor still polling. -/
def runMonitor : List (Option String) → Option MonitorResult
  | [] => none
  | none :: _ => some .notFound
  | some s :: rest =>
    if s ∈ completed_states then some .completed
    else if s ∈ error_states then some (.failed s)
    else runMonitor rest

/-!  ## Progress throttle (progress_bar.py, TorrentProgressTracker)  -/

/-- The fixed milestone list of `should_update`
(`important_milestones` at progress_bar.py line 235). -/
def important_milestones : List ℚ := [25, 50, 75, 90, 95, 99, 100]

/-- Per-handle tracker state: `last_updates[hash]` (default 0) and
`last_progress[hash]` (default -1) of `TorrentProgressTracker`. -/
structure TrackerEntry where
  last_update : ℚ
  last_progress : ℚ
deriving DecidableEq, Repr

/-- The fresh-handle state: dict defaults `last_updates.get(hash, 0)` and
`last_progress.get(hash, -1)`. -/
def freshEntry : TrackerEntry := ⟨0, -1⟩

/-- The `milestone_reached` expression of `should_update`
(progress_bar.py lines 239-242):
`any(last_progress < m <= current_progress for m in important_milestones)`. -/
def milestone_reached (last_progress current_progress : ℚ) : Bool :=
  important_milestones.any fun m =>
    decide (last_progress < m) && decide (m ≤ current_progress)

/-- `TorrentProgressTracker.should_update` (progress_bar.py lines
209-244): emit on `force`, on 30 seconds elapsed since the last emission,
on a 5-point progress change, or on a milestone crossing. -/
def should_update (now : ℚ) (e : TrackerEntry) (current_progress : ℚ)
    (force : Bool) : Bool :=
  force
    || decide (now - e.last_update ≥ 30)
    || decide (|current_progress - e.last_progress| ≥ 5)
    || milestone_reached e.last_progress current_progress

/-- One monitor observation `(now, progress)` processed as the callers
do: `should_update` decides emission and, exactly when it emits,
`update_progress` (progress_bar.py lines 252-255) stores the observation
time and progress. -/
def stepTracker (e : TrackerEntry) (obs : ℚ × ℚ) : Bool × TrackerEntry :=
  let em := should_update obs.1 e obs.2 false
  (em, if em then ⟨obs.1, obs.2⟩ else e)

/-- Number of emissions, along a run of observations, at which milestone
`m` is crossed (`last_progress < m ≤ current_progress` at an emitted
observation). -/
def countFires (m : ℚ) : TrackerEntry → List (ℚ × ℚ) → ℕ
  | _, [] => 0
  | e, ob :: rest =>
    (if (stepTracker e ob).1 && decide (e.last_progress < m)
        && decide (m ≤ ob.2) then 1 else 0)
      + countFires m (stepTracker e ob).2 rest

/-- `ascFrom a ps` holds when `ps` is nondecreasing and starts at or
above `a`: the shape of a monotonically increasing progress sequence
observed from a state whose last emitted progress is `a`. -/
def ascFrom : ℚ → List ℚ → Bool
  | _, [] => true
  | a, p :: rest => decide (a ≤ p) && ascFrom p rest

/-!  ## Delivery strategy (file_sender.py send_file, uploader.py should_use_userbot)  -/

/-- The Telegram Bot API direct-send limit hard-coded in
`SmartFileSender.send_file` (file_sender.py line 103): 50 MiB. -/
def bot_api_limit : ℕ := 50 * 1024 * 1024

/-- One gibibyte, for concrete size examples. -/
def gib : ℕ := 1024 * 1024 * 1024

/-- The relay (userbot) collaborator's state as `send_file` sees it:
`UserbotConfig.is_configured()`, `config.max_file_size` (default 2 GiB),
and `userbot_manager is not None and userbot_manager.is_available()`. -/
structure UserbotEnv where
  configured : Bool
  max_file_size : ℕ
  manager_available : Bool
deriving DecidableEq, Repr

/-- `should_use_userbot` (uploader.py lines 329-350): false when the file
does not exist or the userbot is not configured; otherwise true exactly
when the file size strictly exceeds `config.max_file_size`. -/
def should_use_userbot (file_exists : Bool) (file_size : ℕ)
    (env : UserbotEnv) : Bool :=
  if !file_exists then false
  else if !env.configured then false
  else decide (file_size > env.max_file_size)

/-- The three delivery strategies `send_file` can choose. -/
inductive Strategy where
  | direct : Strategy
  | relay : Strategy
  | split : Strategy
deriving DecidableEq, Repr

/-- The strategy selection of `SmartFileSender.send_file` (file_sender.py
lines 84-108): `none` when the file does not exist (early return False);
userbot relay when `should_use_userbot` holds and the manager is
available; otherwise split when the size exceeds the 50 MiB Bot API
limit; otherwise a direct Bot API send. -/
def send_file_strategy (file_exists : Bool) (file_size : ℕ)
    (env : UserbotEnv) : Option Strategy :=
  if !file_exists then none
  else if should_use_userbot file_exists file_size env
      && env.manager_available then some .relay
  else if decide (file_size > bot_api_limit) then some .split
  else some .direct

/-- Externally visible delivery actions attempted by `send_file`. -/
inductive SendAction where
  | userbot_upload : SendAction
  | send_by_file_id : SendAction
  | split_run : SendAction
  | part_send (i : ℕ) : SendAction
  | bot_api_send : SendAction
deriving DecidableEq, Repr

/-- Outcomes of the external collaborators consumed by one `send_file`
call: whether the userbot upload yields a file id, whether the Bot API
sends succeed, the part list the splitter returns, and which part sends
succeed. -/
structure SendWorld where
  upload_file_id : Bool
  send_by_id_ok : Bool
  bot_api_ok : Bool
  split_parts : ℕ
  part_send_ok : ℕ → Bool

/-- The part-sending loop of `_send_via_split` (file_sender.py lines
239-258): parts are sent in ascending order; the first failing part
aborts the remainder and returns False. -/
def sendParts (w : SendWorld) : ℕ → ℕ → Bool × List SendAction
  | _, 0 => (true, [])
  | i, n + 1 =>
    if w.part_send_ok i then
      let rest := sendParts w (i + 1) n
      (rest.1, .part_send i :: rest.2)
    else (false, [.part_send i])

/-- `_send_via_split` (file_sender.py lines 207-265): splitting is only
attempted when `needs_splitting` holds (size above `MAX_FILE_SIZE_DIRECT`
= 2 GiB, file_manager.py line 49); otherwise the method returns False
without splitting.  On a split it sends every part in order. -/
def send_via_split (w : SendWorld) (file_size : ℕ) : Bool × List SendAction :=
  if decide (file_size > 2 * gib) then
    let r := sendParts w 1 w.split_parts
    (r.1, .split_run :: r.2)
  else (false, [])

/-- `_send_via_userbot` (file_sender.py lines 110-170): upload through
the userbot; with no file id, or when the send-by-file-id fails, fall
back to `_send_via_split`. -/
def send_via_userbot (w : SendWorld) (file_size : ℕ) : Bool × List SendAction :=
  if w.upload_file_id then
    if w.send_by_id_ok then (true, [.userbot_upload, .send_by_file_id])
    else
      let r := send_via_split w file_size
      (r.1, .userbot_upload :: .send_by_file_id :: r.2)
  else
    let r := send_via_split w file_size
    (r.1, .userbot_upload :: r.2)

/-- `SmartFileSender.send_file` (file_sender.py lines 63-108) as a result
plus the list of delivery actions it attempts: a nonexistent file
returns False immediately with no action; otherwise the chosen strategy
branch runs. -/
def send_file_run (file_exists : Bool) (file_size : ℕ) (env : UserbotEnv)
    (w : SendWorld) : Bool × List SendAction :=
  if !file_exists then (false, [])
  else if should_use_userbot file_exists file_size env
      && env.manager_available then send_via_userbot w file_size
  else if decide (file_size > bot_api_limit) then send_via_split w file_size
  else (w.bot_api_ok, [.bot_api_send])

/-- Modelled from the spec: the SizeClassifier of section 4.3, written
from the spec's words to compare against the code's branch selection:
size at most `direct_limit` is Direct; otherwise Relay when the relay is
available and the size is at most `relay_limit`; otherwise Split. -/
def classify_spec (file_size direct_limit relay_limit : ℕ)
    (relay_ok : Bool) : Strategy :=
  if file_size ≤ direct_limit then .direct
  else if relay_ok && decide (file_size ≤ relay_limit) then .relay
  else .split

/-!  ## Relay uploader retry (uploader.py, FileUploader.upload_file)  -/

/-- Signal the relay channel produces for one upload attempt inside
`upload_file` (uploader.py lines 74-161): success, a pyrogram FloodWait
rate limit advising a wait in seconds, a permanent upload error
(FilePartMissing / FileMigrate), or an unexpected exception. -/
inductive UploadSignal where
  | ok : UploadSignal
  | floodWait (seconds : ℚ) : UploadSignal
  | uploadError : UploadSignal
  | unexpectedError : UploadSignal
deriving DecidableEq, Repr

/-- Whether a terminal signal yields a stored record (`ok`) or a `None`
result surfaced to the caller. -/
def terminalSuccess : UploadSignal → Bool
  | .ok => true
  | _ => false

/-- The attempt structure of `upload_file` run against the trace of
signals the channel returns on successive attempts.  On `ok` or a
non-rate-limit error the call returns after that attempt; on a
FloodWait it sleeps the advised duration and recursively re-invokes
itself with the same arguments (uploader.py lines 149-153), so the next
trace element is consumed by a fresh attempt.  The result records
(attempts made, total advised wait slept, success); `none` means the
trace ended with the call still retrying. -/
def upload_file_run : List UploadSignal → Option (ℕ × ℚ × Bool)
  | [] => none
  | .ok :: _ => some (1, 0, true)
  | .floodWait s :: rest =>
    (upload_file_run rest).map fun r => (r.1 + 1, r.2.1 + s, r.2.2)
  | .uploadError :: _ => some (1, 0, false)
  | .unexpectedError :: _ => some (1, 0, false)

/-!  ## Relay cache (shared/file_id_storage.py, FileIdStorage)  -/

/-- `FileUploadRecord` (file_id_storage.py lines 13-32), the row stored
in the `file_uploads` table. -/
structure FileUploadRecord where
  file_path : String
  file_id : String
  file_unique_id : String
  file_size : ℕ
  file_type : String
  upload_timestamp : ℚ
  chat_id : ℤ
  message_id : ℤ
deriving DecidableEq, Repr

/-- The `file_uploads` table, as the list of its rows.  The schema
declares `file_path TEXT UNIQUE`. -/
abbrev FileDB := List FileUploadRecord

/-- `store_file_id` (file_id_storage.py lines 87-118): an
`INSERT OR REPLACE` keyed by the unique `file_path` column, which drops
any existing row for that path and inserts the new one. -/
def store_file_id (r : FileUploadRecord) (db : FileDB) : FileDB :=
  r :: db.filter fun x => x.file_path != r.file_path

/-- `get_file_id` (file_id_storage.py lines 120-147): select the rows
with the given path and return the one with the greatest
`upload_timestamp` (`ORDER BY upload_timestamp DESC LIMIT 1`), or `None`
when there is no such row. -/
def get_file_id (db : FileDB) (path : String) : Option FileUploadRecord :=
  match db.filter (fun x => x.file_path == path) with
  | [] => none
  | r :: rs =>
    some (rs.foldl
      (fun best x =>
        if x.upload_timestamp > best.upload_timestamp then x else best) r)

/-- `cleanup_old_records` (file_id_storage.py lines 161-182): compute
`cutoff = now - max_age_days * 24 * 60 * 60` and delete every row with
`upload_timestamp < cutoff`, keeping exactly the rest. -/
def cleanup_old_records (db : FileDB) (now : ℚ) (max_age_days : ℕ) : FileDB :=
  db.filter fun r =>
    !(decide (r.upload_timestamp < now - max_age_days * (24 * 60 * 60)))

/-!  ## Chunk splitter (file_manager.py, split_file_py7zr / split_file_7z)  -/

/-- `SPLIT_CHUNK_SIZE` (config.py line 44): 1.9 GiB per part. -/
def split_chunk_size : ℕ := 1900 * 1024 * 1024

/-- Python's `f"{n:03d}"`: the decimal representation of `n` left-padded
with zeros to a minimum width of 3. -/
def pad3 (n : ℕ) : String :=
  if n < 10 then "00" ++ toString n
  else if n < 100 then "0" ++ toString n
  else toString n

/-- The numbered part file name `f"{filename}.7z.{part_num:03d}"`
(file_manager.py line 121; the same shape is scanned for by
`split_file_7z` at lines 77-86). -/
def partName (filename : String) (k : ℕ) : String :=
  filename ++ ".7z." ++ pad3 k

/-- The archive name `f"{filename}.7z"` used when the file fits in one
chunk (file_manager.py line 110): note it carries no numeric suffix. -/
def singleArchiveName (filename : String) : String :=
  filename ++ ".7z"

/-- Number of chunks the read loop produces for a file of `S` bytes and
chunk size `C`: the ceiling of `S / C`. -/
def numChunks (S C : ℕ) : ℕ := (S + C - 1) / C

/-- The part-producing loop of `split_file_py7zr` (file_manager.py lines
115-143) on its success path: read a chunk of at most `C` bytes, stop on
an empty read, otherwise archive it as the next numbered part.  `fuel`
is a structural bound on the number of iterations; the wrapper passes
`fuel = remaining`, which the loop never exhausts since each iteration
consumes at least one byte (a `C = 0` read returns empty and stops, as
Python's `read(0)` does). -/
def py7zrPartsAux (filename : String) (C : ℕ) :
    ℕ → ℕ → ℕ → List String
  | 0, _, _ => []
  | _, 0, _ => []
  | fuel + 1, remaining + 1, k =>
    if C = 0 then []
    else partName filename k ::
      py7zrPartsAux filename C fuel (remaining + 1 - C) (k + 1)

/-- The multi-chunk loop started with fuel equal to the file size. -/
def py7zrParts (filename : String) (C remaining k : ℕ) : List String :=
  py7zrPartsAux filename C remaining remaining k

/-- `split_file_py7zr` (file_manager.py lines 100-147) on its success
path: a file fitting in one chunk (`file_size <= SPLIT_CHUNK_SIZE`)
produces the single archive `filename.7z`; otherwise the loop produces
the numbered parts. -/
def split_file_py7zr (filename : String) (S C : ℕ) : List String :=
  if S ≤ C then [singleArchiveName filename]
  else py7zrParts filename C S 1

/-- The same loop run against a fault oracle, tracking the part files
present in the output directory: `failAt = some n` models an exception
raised while producing part `n` (before its archive is completed).  The
first component is `none` when the exception propagates to the
`except` handler — which returns `[]` and performs no file removal — and
`some parts` on success; the second component is the list of part files
on disk when the function returns. -/
def py7zrSplitRunAux (filename : String) (C : ℕ) (failAt : Option ℕ) :
    ℕ → ℕ → ℕ → Option (List String) × List String
  | 0, _, _ => (some [], [])
  | _, 0, _ => (some [], [])
  | fuel + 1, remaining + 1, k =>
    if C = 0 then (some [], [])
    else if failAt = some k then (none, [])
    else
      match py7zrSplitRunAux filename C failAt fuel (remaining + 1 - C)
          (k + 1) with
      | (none, disk) => (none, partName filename k :: disk)
      | (some parts, disk) =>
        (some (partName filename k :: parts), partName filename k :: disk)

/-- `split_file_py7zr` with the fault oracle and the resulting disk
state; in the single-chunk branch a failure is modelled as the archive
write failing before the archive is produced. -/
def split_file_py7zr_run (filename : String) (S C : ℕ)
    (failAt : Option ℕ) : List String × List String :=
  if S ≤ C then
    if failAt = some 1 then ([], [])
    else ([singleArchiveName filename], [singleArchiveName filename])
  else
    match py7zrSplitRunAux filename C failAt S S 1 with
    | (none, disk) => ([], disk)
    | (some parts, disk) => (parts, disk)

/-- `split_file_7z` (file_manager.py lines 51-98): run the external `7z`
command; on a zero exit code scan and return the produced volumes
(modelled by the `scanned` parameter); on a non-zero exit code do NOT
return a failure but fall back to `split_file_py7zr` (line 91). -/
def split_file_7z_run (filename : String) (S C : ℕ) (rc : ℤ)
    (scanned : List String) (failAt : Option ℕ) :
    List String × List String :=
  if rc = 0 then (scanned, scanned)
  else split_file_py7zr_run filename S C failAt

/-- The character of a decimal digit, as `toString` renders it. -/
def digitChar (d : ℕ) : Char := Char.ofNat (48 + d)

/-- The three digit characters of a zero-padded number below 1000. -/
def pad3Digits (n : ℕ) : List Char :=
  [digitChar (n / 100), digitChar (n / 10 % 10), digitChar (n % 10)]

/-!  ## Theorems  -/

/-- Claim C1: a snapshot sequence whose earlier states are all
non-terminal and which ends in "error" makes the monitor return Failed
with that state as the reason, and one that instead ends in a
terminal-success state ("stalledUP", "uploading", "queuedUP", "pausedUP"
or "forcedUP") makes it return Completed. -/
theorem monitor_terminal_classification (pre : List String) (last : String)
    (hpre : ∀ s ∈ pre, s ∉ completed_states ∧ s ∉ error_states) :
    (last = "error" →
      runMonitor ((pre ++ [last]).map some) = some (.failed "error")) ∧
    (last ∈ completed_states →
      runMonitor ((pre ++ [last]).map some) = some .completed) := by
  induction pre with
  | nil =>
    constructor
    · rintro rfl
      decide
    · intro hmem
      simp [runMonitor, hmem]
  | cons s rest ih =>
    have hs := hpre s (by simp)
    have hrest : ∀ t ∈ rest, t ∉ completed_states ∧ t ∉ error_states := by
      intro t ht
      exact hpre t (by simp [ht])
    have step : runMonitor (((s :: rest) ++ [last]).map some) =
        runMonitor ((rest ++ [last]).map some) := by
      simp [runMonitor, hs.1, hs.2]
    rw [step]
    exact ih hrest

/-- Witness for C1 at concrete inputs: prefix ["downloading"], then a
run ending in "error" fails with reason "error" and a run ending in
"stalledUP" completes. -/
theorem monitor_terminal_classification_witness :
    runMonitor [some "downloading", some "error"] = some (.failed "error") ∧
    runMonitor [some "downloading", some "stalledUP"] = some .completed := by
  constructor
  · exact (monitor_terminal_classification ["downloading"] "error"
      (by decide)).1 rfl
  · exact (monitor_terminal_classification ["downloading"] "stalledUP"
      (by decide)).2 (by decide)

/-- Claim C7 counterexample: the engine state string "unknown" is outside
the specified vocabulary (not a Terminal-Success state, not one of the
spec's Terminal-Failure states error/missingFiles, and not a known active
state), yet the monitor returns a terminal Failed result for it instead
of treating it as Active, because the code's own failure list includes
"unknown". -/
theorem monitor_unknown_state_counterexample :
    "unknown" ∉ completed_states ∧
    "unknown" ∉ spec_terminal_failure_states ∧
    "unknown" ∉ downloading_states ∧
    runMonitor [some "unknown"] = some (.failed "unknown") := by
  decide

/-- Claim C7 amended: every state string outside all three of the code's
own lists (terminal success, terminal failure including the literal
"unknown", and known active states) is logged and polling continues, so
an unrecognized state never produces a terminal result; the sole
divergence from the spec's vocabulary is that the literal state "unknown"
is treated as a terminal failure. -/
theorem monitor_unrecognized_state_continues (s : String)
    (rest : List (Option String))
    (h1 : s ∉ completed_states) (h2 : s ∉ error_states)
    (h3 : s ∉ downloading_states) :
    runMonitor (some s :: rest) = runMonitor rest := by
  simp [runMonitor, h1, h2]

/-- Witness for the amended C7: the real qBittorrent state "metaDL" is in
none of the code's lists, and the monitor keeps polling past it. -/
theorem monitor_unrecognized_state_continues_witness :
    runMonitor [some "metaDL", some "stalledUP"] =
      runMonitor [some "stalledUP"] :=
  monitor_unrecognized_state_continues "metaDL" [some "stalledUP"]
    (by decide) (by decide) (by decide)

theorem ascFrom_weaken {a b : ℚ} {l : List ℚ} (hab : a ≤ b)
    (h : ascFrom b l = true) : ascFrom a l = true := by
  cases l with
  | nil => rfl
  | cons p rest =>
    simp only [ascFrom, Bool.and_eq_true, decide_eq_true_eq] at h ⊢
    exact ⟨le_trans hab h.1, h.2⟩

/-- Once the last emitted progress is at or above milestone `m`, the
milestone can never fire again along a nondecreasing continuation. -/
theorem countFires_eq_zero_of_le (m : ℚ) (e : TrackerEntry)
    (obs : List (ℚ × ℚ)) (hm : m ≤ e.last_progress)
    (hasc : ascFrom e.last_progress (obs.map Prod.snd) = true) :
    countFires m e obs = 0 := by
  induction obs generalizing e with
  | nil => rfl
  | cons ob rest ih =>
    simp only [List.map_cons, ascFrom, Bool.and_eq_true,
      decide_eq_true_eq] at hasc
    have hfire : ¬ (e.last_progress < m) := not_lt.mpr hm
    simp only [countFires, stepTracker, decide_eq_true_eq]
    rw [if_neg (by simp [hfire])]
    simp only [Nat.zero_add]
    by_cases hem : should_update ob.1 e ob.2 false = true
    · simp only [hem, if_pos rfl]
      exact ih ⟨ob.1, ob.2⟩ (le_trans hm hasc.1) hasc.2
    · simp only [Bool.not_eq_true] at hem
      simp only [hem, Bool.false_eq_true, if_neg, ite_false]
      exact ih e hm (ascFrom_weaken hasc.1 hasc.2)

/-- Along a nondecreasing observation sequence that reaches milestone
`m` from below, the milestone fires at exactly one emission. -/
theorem countFires_eq_one (m : ℚ) (hm : m ∈ important_milestones)
    (e : TrackerEntry) (obs : List (ℚ × ℚ))
    (hlt : e.last_progress < m)
    (hasc : ascFrom e.last_progress (obs.map Prod.snd) = true)
    (hreach : ∃ p ∈ obs.map Prod.snd, m ≤ p) :
    countFires m e obs = 1 := by
  induction obs generalizing e with
  | nil => simp at hreach
  | cons ob rest ih =>
    simp only [List.map_cons, ascFrom, Bool.and_eq_true,
      decide_eq_true_eq] at hasc
    by_cases hcross : m ≤ ob.2
    · -- the milestone is crossed at this observation, which must emit
      have hmr : milestone_reached e.last_progress ob.2 = true := by
        simp only [milestone_reached, List.any_eq_true]
        exact ⟨m, hm, by simp [hlt, hcross]⟩
      have hem : should_update ob.1 e ob.2 false = true := by
        simp [should_update, hmr]
      simp only [countFires, stepTracker, hem]
      rw [if_pos (by simp [hlt, hcross])]
      have hzero : countFires m ⟨ob.1, ob.2⟩ rest = 0 :=
        countFires_eq_zero_of_le m ⟨ob.1, ob.2⟩ rest hcross hasc.2
      simpa using hzero
    · -- not crossed yet: whatever the emission decision, the milestone
      -- does not fire here and the crossing is still ahead
      push_neg at hcross
      have hreach2 : ∃ p ∈ rest.map Prod.snd, m ≤ p := by
        rcases hreach with ⟨p, hp, hmp⟩
        simp only [List.map_cons, List.mem_cons] at hp
        rcases hp with rfl | hp
        · exact absurd hmp (not_le.mpr hcross)
        · exact ⟨p, hp, hmp⟩
      simp only [countFires, stepTracker]
      rw [if_neg (by simp [not_le.mpr hcross])]
      simp only [Nat.zero_add]
      by_cases hem : should_update ob.1 e ob.2 false = true
      · simp only [hem, if_pos rfl]
        exact ih ⟨ob.1, ob.2⟩ hcross hasc.2 hreach2
      · simp only [Bool.not_eq_true] at hem
        simp only [hem, Bool.false_eq_true, if_neg, ite_false]
        exact ih e hlt (ascFrom_weaken hasc.1 hasc.2) hreach2

/-- Claim C3: over any monotonically increasing progress sequence
(observations `(time, progress)` threaded through `should_update`, with
the tracker state updated exactly at emitted observations, starting from
the fresh-handle state), each milestone of {25, 50, 75, 90, 95, 99, 100}
that the sequence reaches fires at exactly one emission — never skipped
when a poll jumps over it and never fired twice. -/
theorem milestones_fire_exactly_once (m : ℚ) (obs : List (ℚ × ℚ))
    (hm : m ∈ important_milestones)
    (hasc : ascFrom (-1) (obs.map Prod.snd) = true)
    (hreach : ∃ p ∈ obs.map Prod.snd, m ≤ p) :
    countFires m freshEntry obs = 1 := by
  have hlt : (freshEntry.last_progress) < m := by
    simp only [important_milestones, List.mem_cons, List.not_mem_nil,
      or_false] at hm
    rcases hm with rfl | rfl | rfl | rfl | rfl | rfl | rfl <;> norm_num [freshEntry]
  exact countFires_eq_one m hm freshEntry obs hlt hasc hreach

/-- Witness for C3: a poll that jumps from 20 straight to 60 still fires
milestone 50 exactly once. -/
theorem milestones_fire_exactly_once_witness :
    countFires 50 freshEntry [(0, 20), (10, 60), (20, 100)] = 1 :=
  milestones_fire_exactly_once 50 [(0, 20), (10, 60), (20, 100)]
    (by decide) (by decide) ⟨60, by decide, by decide⟩

/-- Claim C2 counterexample: a 3 GiB file exceeds both the 50 MiB direct
limit and the 2 GiB userbot threshold, and the relay is configured and
available; the claim (and the spec classifier) demand Split, but the
code chooses the relay, because `should_use_userbot` treats
`max_file_size` as a lower threshold with no upper bound. -/
theorem size_classifier_counterexample :
    send_file_strategy true (3 * gib) ⟨true, 2 * gib, true⟩ =
      some .relay ∧
    classify_spec (3 * gib) bot_api_limit (2 * gib) true = .split := by
  constructor
  · rfl
  · rfl

/-- Claim C2 amended: the code's classifier is Direct exactly when the
relay branch does not trigger and the size is at most 50 MiB; Relay
exactly when the userbot is configured and available and the size
strictly exceeds `max_file_size` (a lower threshold — there is no upper
relay limit, so a file exceeding both bounds goes to Relay, not Split);
and Split exactly when the relay branch does not trigger and the size
exceeds 50 MiB (in particular for sizes in (50 MiB, max_file_size] even
when the relay is configured). -/
theorem send_file_strategy_characterization (file_size : ℕ)
    (env : UserbotEnv) :
    (send_file_strategy true file_size env = some .relay ↔
      (env.configured = true ∧ env.manager_available = true ∧
        env.max_file_size < file_size)) ∧
    (send_file_strategy true file_size env = some .split ↔
      (¬(env.configured = true ∧ env.manager_available = true ∧
          env.max_file_size < file_size) ∧ bot_api_limit < file_size)) ∧
    (send_file_strategy true file_size env = some .direct ↔
      (¬(env.configured = true ∧ env.manager_available = true ∧
          env.max_file_size < file_size) ∧ file_size ≤ bot_api_limit)) := by
  have hu : (should_use_userbot true file_size env
      && env.manager_available) = true ↔
      (env.configured = true ∧ env.manager_available = true ∧
        env.max_file_size < file_size) := by
    simp only [should_use_userbot, Bool.not_true, Bool.false_eq_true,
      if_false, Bool.and_eq_true, decide_eq_true_eq]
    cases hc : env.configured <;> simp [hc] <;> tauto
  by_cases hrel : (env.configured = true ∧ env.manager_available = true ∧
      env.max_file_size < file_size)
  · have : (should_use_userbot true file_size env
        && env.manager_available) = true := hu.mpr hrel
    simp only [send_file_strategy, Bool.not_true, Bool.false_eq_true,
      if_false, this, if_true]
    refine ⟨by simpa using hrel, ?_, ?_⟩ <;> simp [hrel]
  · have : ¬ ((should_use_userbot true file_size env
        && env.manager_available) = true) := fun h => hrel (hu.mp h)
    simp only [send_file_strategy, Bool.not_true, Bool.false_eq_true,
      if_false, this, if_neg, ite_false]
    by_cases hsz : bot_api_limit < file_size
    · simp [hsz, hrel, not_le.mpr hsz]
    · simp [hsz, hrel, not_lt.mp hsz]

/-- Claim C10: when the file at the given path does not exist,
`send_file` returns False with no send, split or relay action attempted,
for every size, relay configuration and collaborator behavior. -/
theorem send_file_missing_returns_false (file_size : ℕ) (env : UserbotEnv)
    (w : SendWorld) :
    send_file_run false file_size env w = (false, []) ∧
    send_file_strategy false file_size env = none := by
  constructor <;> rfl

/-- Claim C4 counterexample: two consecutive rate-limit signals followed
by a success make `upload_file` attempt the upload three times (sleeping
the advised 3 seconds each time), so the number of attempts is not
bounded by two and the second rate-limited attempt is not surfaced as a
failure. -/
theorem relay_retry_counterexample :
    upload_file_run [.floodWait 3, .floodWait 3, .ok] =
      some (3, 6, true) := by
  simp only [upload_file_run, Option.map_some]
  norm_num

/-- Claim C4 amended: on every rate-limit signal the uploader sleeps the
advised duration and retries the same upload, without any bound on the
number of retries — for a trace of `waits` consecutive rate-limit
signals ended by a terminal signal, it makes `waits.length + 1`
attempts, sleeps the sum of the advised durations, and returns the
terminal signal's outcome; a non-rate-limit failure is surfaced
immediately without a retry. -/
theorem relay_retry_unbounded (waits : List ℚ) (t : UploadSignal)
    (ht : ∀ s : ℚ, t ≠ .floodWait s) :
    upload_file_run (waits.map .floodWait ++ [t]) =
      some (waits.length + 1, waits.sum, terminalSuccess t) := by
  induction waits with
  | nil =>
    cases t with
    | ok => rfl
    | floodWait s => exact absurd rfl (ht s)
    | uploadError => rfl
    | unexpectedError => rfl
  | cons s rest ih =>
    have step : upload_file_run ((s :: rest).map .floodWait ++ [t]) =
        (upload_file_run (rest.map .floodWait ++ [t])).map
          fun r => (r.1 + 1, r.2.1 + s, r.2.2) := rfl
    rw [step, ih]
    simp [add_comm]

/-- Witness for the amended C4: one rate-limit advising 5 seconds
followed by a permanent error yields two attempts, a 5 second sleep, and
a surfaced failure. -/
theorem relay_retry_unbounded_witness :
    upload_file_run [.floodWait 5, .uploadError] = some (2, 5, false) := by
  have h := relay_retry_unbounded [5] .uploadError (by intro s h; cases h)
  simpa using h

/-- Claim C8: after storing a second record for the same path on top of
a first, the table holds exactly one row for that path — the latest
record — and a lookup of the path returns exactly that record, for every
prior table state. -/
theorem store_supersedes (db : FileDB) (r1 r2 : FileUploadRecord)
    (hpath : r1.file_path = r2.file_path) :
    (store_file_id r2 (store_file_id r1 db)).filter
        (fun x => x.file_path == r2.file_path) = [r2] ∧
    get_file_id (store_file_id r2 (store_file_id r1 db)) r2.file_path =
      some r2 := by
  have hfilter : ∀ l : FileDB,
      (store_file_id r2 l).filter (fun x => x.file_path == r2.file_path)
        = [r2] := by
    intro l
    simp only [store_file_id, List.filter_cons]
    rw [if_pos (by simp)]
    rw [List.filter_filter]
    have hnone : ∀ x ∈ l, ¬((x.file_path == r2.file_path) &&
        (x.file_path != r2.file_path)) = true := by
      intro x _
      by_cases h : x.file_path = r2.file_path <;> simp [h]
    rw [List.filter_eq_nil_iff.mpr hnone]
  refine ⟨hfilter _, ?_⟩
  simp only [get_file_id, hfilter (store_file_id r1 db), List.foldl_nil]

/-- Witness for C8: two concrete records for the same path, the second
with a fresh relay identifier; lookup returns the second only. -/
theorem store_supersedes_witness :
    (store_file_id ⟨"/d/a.bin", "id2", "u2", 7, "document", 200, 1, 12⟩
        (store_file_id ⟨"/d/a.bin", "id1", "u1", 7, "document", 100, 1, 11⟩ []))
      = [⟨"/d/a.bin", "id2", "u2", 7, "document", 200, 1, 12⟩] ∧
    get_file_id
        (store_file_id ⟨"/d/a.bin", "id2", "u2", 7, "document", 200, 1, 12⟩
          (store_file_id ⟨"/d/a.bin", "id1", "u1", 7, "document", 100, 1, 11⟩ []))
        "/d/a.bin"
      = some ⟨"/d/a.bin", "id2", "u2", 7, "document", 200, 1, 12⟩ := by
  constructor
  · decide
  · exact (store_supersedes []
      ⟨"/d/a.bin", "id1", "u1", 7, "document", 100, 1, 11⟩
      ⟨"/d/a.bin", "id2", "u2", 7, "document", 200, 1, 12⟩ rfl).2

/-- Claim C9 counterexample: a record whose upload timestamp equals the
eviction-time clock value is kept by an eviction with zero max age
(the deletion predicate is the strict `upload_timestamp < cutoff`), so a
zero max age does not remove all records. -/
theorem evict_zero_counterexample :
    cleanup_old_records [⟨"/d/b.bin", "id", "u", 1, "document", 100, 1, 5⟩]
        100 0 =
      [⟨"/d/b.bin", "id", "u", 1, "document", 100, 1, 5⟩] ∧
    cleanup_old_records [⟨"/d/b.bin", "id", "u", 1, "document", 100, 1, 5⟩]
        100 0 ≠ ([] : FileDB) := by
  have heq : cleanup_old_records
      [⟨"/d/b.bin", "id", "u", 1, "document", 100, 1, 5⟩] 100 0 =
      [⟨"/d/b.bin", "id", "u", 1, "document", 100, 1, 5⟩] := by
    simp [cleanup_old_records]
  exact ⟨heq, by rw [heq]; simp⟩

/-- Claim C9 amended: eviction keeps exactly the records whose upload
timestamp is not strictly older than the cutoff `now - max_age * 86400`,
independent of any access pattern; a zero max age removes every record
whose timestamp is strictly before `now` (one stamped at or after `now`
survives); and a max age large enough that the cutoff is at or below
every timestamp removes nothing. -/
theorem cleanup_age_only (db : FileDB) (now : ℚ) (max_age_days : ℕ) :
    (∀ r : FileUploadRecord, r ∈ cleanup_old_records db now max_age_days ↔
      (r ∈ db ∧ now - max_age_days * (24 * 60 * 60) ≤ r.upload_timestamp)) ∧
    ((∀ r ∈ db, r.upload_timestamp < now) →
      cleanup_old_records db now 0 = []) ∧
    ((∀ r ∈ db, now - max_age_days * (24 * 60 * 60) ≤ r.upload_timestamp) →
      cleanup_old_records db now max_age_days = db) := by
  refine ⟨?_, ?_, ?_⟩
  · intro r
    simp [cleanup_old_records, List.mem_filter, not_lt]
  · intro h
    apply List.filter_eq_nil_iff.mpr
    intro r hr
    simp only [Nat.cast_zero, zero_mul, sub_zero, Bool.not_eq_eq_eq_not,
      Bool.not_true, decide_eq_false_iff_not, not_lt, not_le]
    simpa using h r hr
  · intro h
    apply List.filter_eq_self.mpr
    intro r hr
    simpa [not_lt] using h r hr

/-- Witness for the amended C9: a record stamped 100 is removed by a
zero-max-age eviction at time 200 and kept by a one-day-max-age eviction
at time 200. -/
theorem cleanup_age_only_witness :
    cleanup_old_records [⟨"/d/c.bin", "id", "u", 1, "document", 100, 1, 5⟩]
        200 0 = [] ∧
    cleanup_old_records [⟨"/d/c.bin", "id", "u", 1, "document", 100, 1, 5⟩]
        200 1 =
      [⟨"/d/c.bin", "id", "u", 1, "document", 100, 1, 5⟩] := by
  constructor
  · exact (cleanup_age_only
      [⟨"/d/c.bin", "id", "u", 1, "document", 100, 1, 5⟩] 200 0).2.1
      (by intro r hr; simp at hr; rw [hr]; norm_num)
  · exact (cleanup_age_only
      [⟨"/d/c.bin", "id", "u", 1, "document", 100, 1, 5⟩] 200 1).2.2
      (by intro r hr; simp at hr; rw [hr]; norm_num)

/-- Claim C5 counterexample: splitting a 300-byte file into 100-byte
chunks with an error while producing part 3 returns the Failure value
`[]`, yet parts 001 and 002 remain in the output directory — no cleanup
happens before returning; and a non-zero exit code of the external `7z`
archiver does not return Failure at all but falls back to the py7zr
splitter, which here succeeds. -/
theorem split_cleanup_counterexample :
    split_file_py7zr_run "a.bin" 300 100 (some 3) =
      ([], [partName "a.bin" 1, partName "a.bin" 2]) ∧
    split_file_7z_run "a.bin" 100 1000 1 [] none =
      ([singleArchiveName "a.bin"], [singleArchiveName "a.bin"]) := by
  constructor
  · decide
  · decide

/-- Claim C6 counterexample: a file fitting in a single chunk produces
exactly one part, but that part is the plain archive `movie.mkv.7z`,
which does not carry the claimed zero-padded numeric suffix starting at
1 (`movie.mkv.7z.001`); moreover for part counts beyond 999 the
lexicographic order of part names diverges from numeric order, since
`.1000` sorts before `.999`. -/
theorem split_single_part_counterexample :
    split_file_py7zr "movie.mkv" 100 1000 = ["movie.mkv.7z"] ∧
    singleArchiveName "movie.mkv" ≠ partName "movie.mkv" 1 ∧
    ¬ partName "f" 999 < partName "f" 1000 := by
  refine ⟨by decide, by decide, ?_⟩
  simp only [String.lt_iff_toList_lt]
  decide

theorem pad3_toList : ∀ n < 1000, (pad3 n).toList = pad3Digits n := by
  decide

theorem digitChar_lt_iff :
    ∀ a < 10, ∀ b < 10, (digitChar a < digitChar b ↔ a < b) := by
  decide

theorem string_data_append (s t : String) :
    (s ++ t).data = s.data ++ t.data := by
  cases s
  cases t
  rfl

theorem lex_append_left {p a b : List Char} (h : List.Lex (· < ·) a b) :
    List.Lex (· < ·) (p ++ a) (p ++ b) := by
  induction p with
  | nil => exact h
  | cons c cs ih => exact List.Lex.cons ih

theorem pad3_lex_lt {i j : ℕ} (hij : i < j) (hj : j ≤ 999) :
    List.Lex (· < ·) (pad3 i).toList (pad3 j).toList := by
  rw [pad3_toList i (by omega), pad3_toList j (by omega)]
  unfold pad3Digits
  rcases Nat.lt_trichotomy (i / 100) (j / 100) with h2 | h2 | h2
  · exact List.Lex.rel
      ((digitChar_lt_iff _ (by omega) _ (by omega)).mpr h2)
  · rw [h2]
    apply List.Lex.cons
    rcases Nat.lt_trichotomy (i / 10 % 10) (j / 10 % 10) with h1 | h1 | h1
    · exact List.Lex.rel
        ((digitChar_lt_iff _ (by omega) _ (by omega)).mpr h1)
    · rw [h1]
      apply List.Lex.cons
      have h0 : i % 10 < j % 10 := by omega
      exact List.Lex.rel
        ((digitChar_lt_iff _ (by omega) _ (by omega)).mpr h0)
    · exact absurd h1 (by omega)
  · exact absurd h2 (by omega)

theorem partName_lt (f : String) {i j : ℕ} (hij : i < j) (hj : j ≤ 999) :
    partName f i < partName f j := by
  rw [String.lt_iff_toList_lt]
  show ((f ++ ".7z.") ++ pad3 i).data < ((f ++ ".7z.") ++ pad3 j).data
  rw [string_data_append, string_data_append]
  exact lex_append_left (pad3_lex_lt hij hj)

theorem numChunks_pos {S C : ℕ} (hC : 0 < C) (hS : 0 < S) :
    1 ≤ numChunks S C := by
  unfold numChunks
  rw [Nat.le_div_iff_mul_le hC]
  omega

theorem numChunks_le_one {S C : ℕ} (hC : 0 < C) (hSC : S ≤ C) :
    numChunks S C ≤ 1 := by
  unfold numChunks
  have h2 : (S + C - 1) / C < 2 :=
    (Nat.div_lt_iff_lt_mul hC).mpr (by omega)
  omega

theorem numChunks_eq_one {S C : ℕ} (hC : 0 < C) (hS : 0 < S) (hSC : S ≤ C) :
    numChunks S C = 1 := by
  have hle := numChunks_le_one hC hSC
  have hpos := numChunks_pos hC hS
  omega

theorem numChunks_succ {S C : ℕ} (hC : 0 < C) (hS : C < S) :
    numChunks S C = numChunks (S - C) C + 1 := by
  unfold numChunks
  have h1 : S + C - 1 = S - C - 1 + C + C := by omega
  have h2 : S - C + C - 1 = S - C - 1 + C := by omega
  rw [h1, h2, Nat.add_div_right _ hC, Nat.add_div_right _ hC]

theorem py7zrPartsAux_eq (f : String) (C : ℕ) (hC : 0 < C) :
    ∀ fuel R k, 0 < R → R ≤ fuel →
      py7zrPartsAux f C fuel R k =
        (List.range' k (numChunks R C)).map (partName f) := by
  intro fuel
  induction fuel with
  | zero => intro R k hR hRf; omega
  | succ fuel ih =>
    intro R k hR hRf
    obtain ⟨R', rfl⟩ : ∃ R', R = R' + 1 := ⟨R - 1, by omega⟩
    show (if C = 0 then [] else partName f k ::
        py7zrPartsAux f C fuel (R' + 1 - C) (k + 1)) = _
    rw [if_neg (by omega)]
    by_cases hSC : R' + 1 ≤ C
    · have hz : R' + 1 - C = 0 := by omega
      rw [hz]
      have haux : py7zrPartsAux f C fuel 0 (k + 1) = [] := by
        cases fuel <;> rfl
      rw [haux, numChunks_eq_one hC hR hSC, List.range'_one, List.map_cons,
        List.map_nil]
    · push_neg at hSC
      rw [ih (R' + 1 - C) (k + 1) (by omega) (by omega),
        numChunks_succ hC hSC, List.range'_succ, List.map_cons]

/-- Claim C6 amended: for a positive chunk size, `split_file_py7zr`
produces exactly `max 1 ⌈S/C⌉` parts; a multi-chunk file's parts are
exactly the names with zero-padded (width at least 3) numeric suffixes
1..N in that order, and for indices up to 999 the lexicographic order of
part names agrees with numeric order; a file fitting in one chunk
produces exactly one part, the plain archive `filename.7z` with no
numeric suffix. -/
theorem split_file_py7zr_shape (f : String) (S C : ℕ) (hC : 0 < C) :
    (split_file_py7zr f S C).length = max 1 (numChunks S C) ∧
    (C < S → split_file_py7zr f S C =
      (List.range' 1 (numChunks S C)).map (partName f)) ∧
    (S ≤ C → split_file_py7zr f S C = [singleArchiveName f]) ∧
    (∀ i j : ℕ, i < j → j ≤ 999 → partName f i < partName f j) := by
  refine ⟨?_, ?_, ?_, fun i j hij hj => partName_lt f hij hj⟩
  · by_cases hSC : S ≤ C
    · have hle : numChunks S C ≤ 1 := numChunks_le_one hC hSC
      simp only [split_file_py7zr, if_pos hSC, List.length_cons,
        List.length_nil]
      omega
    · push_neg at hSC
      have h := py7zrPartsAux_eq f C hC S S 1 (by omega) le_rfl
      simp only [split_file_py7zr, if_neg (by omega : ¬ S ≤ C), py7zrParts, h,
        List.length_map, List.length_range']
      have := numChunks_pos hC (by omega : 0 < S)
      omega
  · intro hSC
    simp only [split_file_py7zr, if_neg (by omega : ¬ S ≤ C), py7zrParts]
    exact py7zrPartsAux_eq f C hC S S 1 (by omega) le_rfl
  · intro hSC
    simp only [split_file_py7zr, if_pos hSC]

/-- Witness for the amended C6: 250 bytes in 100-byte chunks yields
exactly the three parts .001 .002 .003 in order, 50 bytes in 100-byte
chunks yields the single suffix-free archive, and part names order
lexicographically by index. -/
theorem split_file_py7zr_shape_witness :
    (split_file_py7zr "c.bin" 250 100).length = 3 ∧
    split_file_py7zr "c.bin" 250 100 =
      [partName "c.bin" 1, partName "c.bin" 2, partName "c.bin" 3] ∧
    split_file_py7zr "c.bin" 50 100 = [singleArchiveName "c.bin"] ∧
    partName "c.bin" 2 < partName "c.bin" 3 := by
  have h := split_file_py7zr_shape "c.bin" 250 100 (by norm_num)
  have h2 := split_file_py7zr_shape "c.bin" 50 100 (by norm_num)
  refine ⟨?_, ?_, h2.2.2.1 (by norm_num),
    h.2.2.2 2 3 (by norm_num) (by norm_num)⟩
  · rw [h.1]
    rfl
  · rw [h.2.1 (by norm_num)]
    rfl

theorem py7zrSplitRunAux_fail (f : String) (C fk : ℕ) (hC : 0 < C) :
    ∀ fuel R k, 0 < R → R ≤ fuel → k ≤ fk → fk < k + numChunks R C →
      py7zrSplitRunAux f C (some fk) fuel R k =
        (none, (List.range' k (fk - k)).map (partName f)) := by
  intro fuel
  induction fuel with
  | zero => intro R k hR hRf hk1 hk2; omega
  | succ fuel ih =>
    intro R k hR hRf hk1 hk2
    obtain ⟨R', rfl⟩ : ∃ R', R = R' + 1 := ⟨R - 1, by omega⟩
    show (if C = 0 then (some [], []) else
        if (some fk : Option ℕ) = some k then (none, []) else _) = _
    rw [if_neg (by omega)]
    by_cases hk : fk = k
    · rw [if_pos (by rw [hk]), hk, Nat.sub_self, List.range'_zero,
        List.map_nil]
    · rw [if_neg (by simpa using hk)]
      have hklt : k < fk := by omega
      have hbig : C < R' + 1 := by
        by_contra hle
        push_neg at hle
        have := numChunks_le_one hC hle
        omega
      rw [ih (R' + 1 - C) (k + 1) (by omega) (by omega) (by omega)
        (by rw [numChunks_succ hC hbig] at hk2; omega)]
      have hstep : fk - k = (fk - (k + 1)) + 1 := by omega
      rw [hstep, List.range'_succ, List.map_cons]

/-- Claim C5 amended: when the py7zr splitter hits an error while
producing part `fk` of a multi-chunk split, it propagates to the
exception handler which returns the Failure value `[]` without partial
success in the returned list, but performs no cleanup: the
already-produced parts 1..fk-1 remain in the output directory; and a
non-zero exit code of the external `7z` archiver does not produce a
Failure at all — `split_file_7z` falls back to the py7zr splitter
instead. -/
theorem split_failure_no_cleanup (f : String) (S C fk : ℕ) (rc : ℤ)
    (scanned : List String) (hC : 0 < C) (hS : C < S)
    (h1 : 1 ≤ fk) (h2 : fk ≤ numChunks S C) :
    split_file_py7zr_run f S C (some fk) =
      ([], (List.range' 1 (fk - 1)).map (partName f)) ∧
    (rc ≠ 0 → split_file_7z_run f S C rc scanned (some fk) =
      split_file_py7zr_run f S C (some fk)) := by
  constructor
  · have haux := py7zrSplitRunAux_fail f C fk hC S S 1 (by omega) le_rfl h1
      (by omega)
    simp only [split_file_py7zr_run, if_neg (by omega : ¬ S ≤ C), haux]
  · intro hrc
    simp only [split_file_7z_run, if_neg hrc]

/-- Witness for the amended C5: a 300-byte file in 100-byte chunks with
an error at part 2 returns `[]` while part 001 stays on disk, and a
failing external `7z` run falls through to the same py7zr result. -/
theorem split_failure_no_cleanup_witness :
    split_file_py7zr_run "b.bin" 300 100 (some 2) =
      ([], [partName "b.bin" 1]) ∧
    split_file_7z_run "b.bin" 300 100 1 [] (some 2) =
      split_file_py7zr_run "b.bin" 300 100 (some 2) := by
  have h := split_failure_no_cleanup "b.bin" 300 100 2 1 []
    (by norm_num) (by norm_num) (by norm_num)
    (by norm_num [numChunks])
  exact ⟨by rw [h.1]; rfl, h.2 (by norm_num)⟩

end TorrentBot
